import Mathlib

/-!
# Circuit breaker demo (`main.go`): a shallow embedding

The Go program wires an HTTP demo server, an SMS-style client and a
circuit-breaker proxy around that client.  This file embeds

* the float64 arithmetic used by `shouldBeSwitchedToOpen`,
* `shouldBeSwitchedToOpen` itself,
* `SmsClient.Send` and the two handlers of `ExampleServer`,
* the breaker behind `ClientCircuitBreakerProxy.Send`.  The breaker is the
  library `gobreaker`, whose code is not part of `main.go`; it is modelled from
  the specification of the repository (section 4.1).

Unsigned 32-bit counters are natural numbers together with an explicit bound
`< 2 ^ 32`; durations and instants are natural numbers of nanoseconds.
-/

namespace CBDemo

/-! ## float64 values that the counters can produce -/

/-- A non-negative IEEE-754 binary64 value: not-a-number, plus infinity, or the
finite value `m * 2 ^ e`.  Only non-negative values occur, because every float
in the program is a quotient of two converted unsigned counters or a positive
literal. -/
inductive F64 where
  | nan : F64
  | inf : F64
  | fin (m : Nat) (e : Int) : F64
  deriving DecidableEq, Repr

namespace F64

/-- Nearest integer to `n / d` (for `d > 0`), a tie going to the even
neighbour: the rounding mode of every float64 operation in Go. -/
def roundNearestEven (n d : Nat) : Nat :=
  let q := n / d
  let r := n % d
  if 2 * r < d then q
  else if d < 2 * r then q + 1
  else if q % 2 = 0 then q else q + 1

/-- Position of the leading one bit of `n`, counted from zero, searched with
at most `fuel` halvings. -/
def log2Aux : Nat → Nat → Nat
  | 0, _ => 0
  | fuel + 1, n => if n < 2 then 0 else log2Aux fuel (n / 2) + 1

/-- Floor of the binary logarithm of `n` (and `0` for `n = 0`). -/
def log2 (n : Nat) : Nat := log2Aux n n

/-- The binary shift `s` that brings the quotient `a / b` (both positive) into
the significand range of binary64: `2 ^ 52 ≤ a * 2 ^ s / b < 2 ^ 53`. -/
def shift (a b : Nat) : Int :=
  let d : Int := 52 + (log2 b : Int) - (log2 a : Int)
  if a * 2 ^ d.toNat < 2 ^ 52 * (b * 2 ^ (-d).toNat) then d + 1 else d

/-- Correctly rounded quotient of the exact values `a * 2 ^ ea` and
`b * 2 ^ eb` (with `a, b > 0`): the significand is rounded to 53 bits, ties to
even.  The exponent is kept unbounded; for quotients of two `uint32` values
the magnitude lies between `2 ^ (-32)` and `2 ^ 32`, far inside the normal
range of binary64, where this is exactly the IEEE-754 result. -/
def quot (a : Nat) (ea : Int) (b : Nat) (eb : Int) : F64 :=
  let s := shift a b
  fin (roundNearestEven (a * 2 ^ s.toNat) (b * 2 ^ (-s).toNat)) (ea - eb - s)

/-- Go's `float64(x)` for a `uint32` value `x`: exact, since `x < 2 ^ 53`. -/
def ofUInt32 (x : Nat) : F64 := fin x 0

/-- Go's `/` on float64, on the non-negative values: `0/0` and `inf/inf` are
NaN, a positive value over zero is `+Inf`, nothing faults. -/
def div : F64 → F64 → F64
  | nan, _ => nan
  | _, nan => nan
  | inf, inf => nan
  | inf, fin _ _ => inf
  | fin _ _, inf => fin 0 0
  | fin a ea, fin b eb =>
    if b = 0 then (if a = 0 then nan else inf)
    else if a = 0 then fin 0 0
    else quot a ea b eb

/-- Go's `>=` on float64: false as soon as one side is NaN. -/
def ge : F64 → F64 → Bool
  | nan, _ => false
  | _, nan => false
  | inf, _ => true
  | fin _ _, inf => false
  | fin a ea, fin b eb =>
    decide (b * 2 ^ (eb - ea).toNat ≤ a * 2 ^ (ea - eb).toNat)

/-- The float64 constant written `0.6` in the source: the exact decimal `6/10`
rounded to binary64. -/
def lit_0_6 : F64 := quot 6 0 10 0

end F64

/-! ## Counts and the ready-to-trip predicate -/

/-- The fields of `gobreaker.Counts` (all `uint32` in Go). -/
structure Counts where
  Requests : Nat
  TotalSuccesses : Nat
  TotalFailures : Nat
  ConsecutiveSuccesses : Nat
  ConsecutiveFailures : Nat
  deriving DecidableEq, Repr

/-- Every counter fits an unsigned 32-bit integer. -/
def Counts.IsUInt32 (c : Counts) : Prop :=
  c.Requests < 2 ^ 32 ∧ c.TotalSuccesses < 2 ^ 32 ∧ c.TotalFailures < 2 ^ 32 ∧
    c.ConsecutiveSuccesses < 2 ^ 32 ∧ c.ConsecutiveFailures < 2 ^ 32

instance (c : Counts) : Decidable c.IsUInt32 := by
  unfold Counts.IsUInt32
  exact inferInstance

/-- The quotient `float64(counts.TotalFailures) / float64(counts.Requests)`
of `shouldBeSwitchedToOpen`. -/
def failureRatio (counts : Counts) : F64 :=
  F64.div (F64.ofUInt32 counts.TotalFailures) (F64.ofUInt32 counts.Requests)

/-- `shouldBeSwitchedToOpen` of `main.go`: the ratio is computed first, then
`counts.Requests >= 3 && failureRatio >= 0.6`. -/
def shouldBeSwitchedToOpen (counts : Counts) : Bool :=
  let failureRatio := failureRatio counts
  decide (counts.Requests ≥ 3) && F64.ge failureRatio F64.lit_0_6

/-! ## The breaker (library code, modelled from the specification) -/

/-- Modelled from the spec: the counter update of a recorded success, which
lives in `gobreaker` (not in `main.go`): "increment requests; on success
increment successes and consecutive_successes, reset consecutive_failures to
0". -/
def Counts.onSuccess (c : Counts) : Counts :=
  { Requests := c.Requests + 1
    TotalSuccesses := c.TotalSuccesses + 1
    TotalFailures := c.TotalFailures
    ConsecutiveSuccesses := c.ConsecutiveSuccesses + 1
    ConsecutiveFailures := 0 }

/-- Modelled from the spec: the counter update of a recorded failure, which
lives in `gobreaker`: "increment requests; on failure increment failures and
consecutive_failures, reset consecutive_successes to 0". -/
def Counts.onFailure (c : Counts) : Counts :=
  { Requests := c.Requests + 1
    TotalSuccesses := c.TotalSuccesses
    TotalFailures := c.TotalFailures + 1
    ConsecutiveSuccesses := 0
    ConsecutiveFailures := c.ConsecutiveFailures + 1 }

/-- Modelled from the spec: the zero counts of a new measurement window. -/
def Counts.zero : Counts := ⟨0, 0, 0, 0, 0⟩

/-- Modelled from the spec: the three breaker states of `gobreaker.State`. -/
inductive State where
  | Closed
  | Open
  | HalfOpen
  deriving DecidableEq, Repr

/-- Modelled from the spec: the part of `gobreaker.Settings` that `main.go`
fills in.  Durations are nanoseconds, as in Go's `time.Duration`. -/
structure Settings where
  Interval : Nat
  Timeout : Nat
  ReadyToTrip : Counts → Bool

/-- Modelled from the spec: the state a `gobreaker.CircuitBreaker` owns:
state, generation, counts, the instant at which the current generation began
(last reset or state entry) and the half-open in-flight marker. -/
structure CircuitBreaker where
  settings : Settings
  state : State
  generation : Nat
  counts : Counts
  since : Nat
  inFlight : Bool

/-- Modelled from the spec: the two admission-rejection errors of the breaker
and the pass-through of an operation error. -/
inductive ExecError (ε : Type) where
  | ErrCircuitOpen
  | ErrTooManyRequests
  | operation (e : ε)
  deriving DecidableEq, Repr

/-- Modelled from the spec: "created Closed with zero counts", at instant
`now`. -/
def NewCircuitBreaker (st : Settings) (now : Nat) : CircuitBreaker :=
  { settings := st, state := State.Closed, generation := 0, counts := Counts.zero,
    since := now, inFlight := false }

/-- Modelled from the spec: a new generation: the generation counter is
incremented, the counts are reset to zero, the window (or open timer) starts
at `now`, and no probe is in flight. -/
def CircuitBreaker.toNewGeneration (now : Nat) (b : CircuitBreaker) : CircuitBreaker :=
  { b with generation := b.generation + 1, counts := Counts.zero, since := now,
           inFlight := false }

/-- Modelled from the spec: a state transition, always into a new
generation. -/
def CircuitBreaker.setState (s : State) (now : Nat) (b : CircuitBreaker) : CircuitBreaker :=
  CircuitBreaker.toNewGeneration now { b with state := s }

/-- Modelled from the spec: `beforeCall()` of section 4.1, step 1.  The result
is the rejection error, or the breaker after admission together with the
generation captured at admission.  A duration has elapsed once the clock has
reached the start instant plus the duration; an interval of zero never
elapses. -/
def CircuitBreaker.beforeCall {ε : Type} (now : Nat) (b : CircuitBreaker) :
    Except (ExecError ε) (CircuitBreaker × Nat) :=
  match b.state with
  | State.Open =>
    if now < b.since + b.settings.Timeout then Except.error ExecError.ErrCircuitOpen
    else
      let b1 := { b.setState State.HalfOpen now with inFlight := true }
      Except.ok (b1, b1.generation)
  | State.HalfOpen =>
    if b.inFlight then Except.error ExecError.ErrTooManyRequests
    else Except.ok ({ b with inFlight := true }, b.generation)
  | State.Closed =>
    if b.settings.Interval ≠ 0 ∧ b.since + b.settings.Interval ≤ now then
      let b1 := b.toNewGeneration now
      Except.ok (b1, b1.generation)
    else Except.ok (b, b.generation)

/-- Modelled from the spec: `afterCall(generation, success)` of section 4.1,
step 3, at instant `now`.  A stale generation is discarded; otherwise the
counts are updated and the state reacts: Closed trips when the predicate holds
after a failure, HalfOpen closes on success and reopens on failure. -/
def CircuitBreaker.afterCall (generation : Nat) (success : Bool) (now : Nat)
    (b : CircuitBreaker) : CircuitBreaker :=
  if generation ≠ b.generation then b
  else
    let counts := if success then b.counts.onSuccess else b.counts.onFailure
    let b1 := { b with counts := counts }
    match b.state with
    | State.Closed =>
      if !success && b.settings.ReadyToTrip counts then b1.setState State.Open now else b1
    | State.HalfOpen =>
      if success then b1.setState State.Closed now else b1.setState State.Open now
    | State.Open => b1

/-- Modelled from the spec: `Execute(operation)` of section 4.1.  The
protected operation acts on a world `w` (everything outside the breaker) and
returns `none` for success or `some e` for the error `e`; `now` is the instant
of admission and `done` the instant of completion. -/
def CircuitBreaker.Execute {κ ε : Type} (operation : κ → Option ε × κ) (now done : Nat)
    (b : CircuitBreaker) (w : κ) : Option (ExecError ε) × CircuitBreaker × κ :=
  match CircuitBreaker.beforeCall now b with
  | Except.error e => (some e, b, w)
  | Except.ok (b1, generation) =>
    let r := operation w
    (r.1.map ExecError.operation, b1.afterCall generation r.1.isNone done, r.2)

/-- A Go `error` value, identified by its message. -/
structure GoError where
  msg : String
  deriving DecidableEq, Repr

/-- `errors.New`. -/
def errorsNew (msg : String) : GoError := ⟨msg⟩

/-- The part of `http.Response` the client reads. -/
structure Response where
  StatusCode : Int
  deriving DecidableEq, Repr

/-- `SmsClient` of `main.go`. -/
structure SmsClient where
  baseUrl : String
  deriving DecidableEq, Repr

/-- `NewSmsClient` of `main.go`. -/
def NewSmsClient (baseUrl : String) : SmsClient := { baseUrl := baseUrl }

/-- `SmsClient.Send` of `main.go`; `httpGet` is the outcome `http.Get` gives
for a URL: a transport error or a response. -/
def SmsClient.Send (httpGet : String → Except GoError Response) (s : SmsClient) :
    Option GoError :=
  let url := s.baseUrl ++ "/"
  match httpGet url with
  | Except.error err => some err
  | Except.ok resp =>
    if resp.StatusCode < 200 ∨ resp.StatusCode ≥ 300 then some (errorsNew "bad response")
    else none

/-- The interface `NotificationClient` of `main.go`: `Send() error`, acting on
the client's own state `κ`. -/
structure NotificationClient (κ ε : Type) where
  Send : κ → Option ε × κ

/-- `ClientCircuitBreakerProxy` of `main.go` (without the logger): the state
of the wrapped client and the breaker. -/
structure ClientCircuitBreakerProxy (κ : Type) where
  client : κ
  gb : CircuitBreaker

/-- One second in nanoseconds (`time.Second`). -/
def second : Nat := 1000000000

/-- The settings `cfg` of `NewClientCircuitBreakerProxy` (the state-change
observer only logs). -/
def cfg : Settings :=
  { Interval := 5 * second, Timeout := 7 * second, ReadyToTrip := shouldBeSwitchedToOpen }

/-- `NewClientCircuitBreakerProxy` of `main.go`, called at instant `now`. -/
def NewClientCircuitBreakerProxy {κ : Type} (client : κ) (now : Nat) :
    ClientCircuitBreakerProxy κ :=
  { client := client, gb := NewCircuitBreaker cfg now }

/-- `ClientCircuitBreakerProxy.Send` of `main.go`: the wrapped client's `Send`
run under the breaker's `Execute`; the error of `Execute` is returned. -/
def ClientCircuitBreakerProxy.Send {κ ε : Type} (impl : NotificationClient κ ε)
    (now done : Nat) (c : ClientCircuitBreakerProxy κ) :
    Option (ExecError ε) × ClientCircuitBreakerProxy κ :=
  let r := c.gb.Execute (fun w => impl.Send w) now done c.client
  (r.1, { client := r.2.2, gb := r.2.1 })

/-- A sequence of `Send` calls, each given by its instants of admission and
completion; the errors returned, in order, and the proxy afterwards. -/
def ClientCircuitBreakerProxy.SendAll {κ ε : Type} (impl : NotificationClient κ ε) :
    List (Nat × Nat) → ClientCircuitBreakerProxy κ →
      List (Option (ExecError ε)) × ClientCircuitBreakerProxy κ
  | [], c => ([], c)
  | t :: ts, c =>
    let r := c.Send impl t.1 t.2
    let rs := ClientCircuitBreakerProxy.SendAll impl ts r.2
    (r.1 :: rs.1, rs.2)

/-- `ExampleServer` of `main.go` (without the logger). -/
structure ExampleServer where
  addr : String
  isEnabled : Bool
  deriving DecidableEq, Repr

/-- `NewExampleServer` of `main.go`. -/
def NewExampleServer (addr : String) : ExampleServer :=
  { addr := addr, isEnabled := true }

/-- `http.StatusOK`. -/
def StatusOK : Nat := 200

/-- `http.StatusInternalServerError`. -/
def StatusInternalServerError : Nat := 500

/-- The handler registered for `"/"` in `ExampleServer.ListenAndServe`: the
status code written and the server afterwards. -/
def ExampleServer.handleRoot (s : ExampleServer) : Nat × ExampleServer :=
  if s.isEnabled then (StatusOK, s) else (StatusInternalServerError, s)

/-- The handler registered for `"/toggle"` in `ExampleServer.ListenAndServe`. -/
def ExampleServer.handleToggle (s : ExampleServer) : Nat × ExampleServer :=
  let s1 := { s with isEnabled := !s.isEnabled }
  (StatusOK, s1)

/-- The server after `n` requests to `"/toggle"`. -/
def ExampleServer.toggles : Nat → ExampleServer → ExampleServer
  | 0, s => s
  | n + 1, s => ExampleServer.toggles n (s.handleToggle).2

/-- A client that always fails and counts how often it was invoked. -/
def failingClient : NotificationClient Nat GoError :=
  { Send := fun n => (some (errorsNew "bad response"), n + 1) }

/-- A proxy around the counting client whose breaker entered Open at instant
`0` (generation 1). -/
def openProxy : ClientCircuitBreakerProxy Nat :=
  { client := 3
    gb := { settings := cfg, state := State.Open, generation := 1, counts := Counts.zero,
            since := 0, inFlight := false } }

end CBDemo

namespace CBDemo

/-! ## Lemmas on the float64 model -/

namespace F64

theorem log2Aux_spec (fuel : Nat) : ∀ n : Nat, n ≤ fuel → n ≠ 0 →
    2 ^ log2Aux fuel n ≤ n ∧ n < 2 ^ (log2Aux fuel n + 1) := by
  induction fuel with
  | zero => intro n h hn; omega
  | succ f ih =>
    intro n h hn
    unfold log2Aux
    by_cases h2 : n < 2
    · simp only [h2, if_true]
      constructor <;> simp <;> omega
    · simp only [h2, if_false]
      have hd := ih (n / 2) (by omega) (by omega)
      obtain ⟨h1, h3⟩ := hd
      constructor
      · rw [pow_succ]; omega
      · rw [pow_succ]; omega

theorem log2_spec (n : Nat) (hn : n ≠ 0) : 2 ^ log2 n ≤ n ∧ n < 2 ^ (log2 n + 1) :=
  log2Aux_spec n n (le_refl n) hn

theorem shift_spec (a b : Nat) (ha : a ≠ 0) (hb : b ≠ 0) (ha53 : a < 2 ^ 53) :
    ∃ S : Nat, shift a b = (S : Int) ∧ 2 ^ 52 * b ≤ a * 2 ^ S ∧ a * 2 ^ S < 2 ^ 53 * b := by
  obtain ⟨hla, hla2⟩ := log2_spec a ha
  obtain ⟨hlb, hlb2⟩ := log2_spec b hb
  have hla52 : log2 a ≤ 52 := by
    by_contra hc
    have : 2 ^ 53 ≤ 2 ^ log2 a := Nat.pow_le_pow_right (by decide) (by omega)
    omega
  have hD : (52 + (log2 b : Int) - (log2 a : Int)) = ((52 + log2 b - log2 a : Nat) : Int) := by
    omega
  have e1 : a * 2 ^ (52 + log2 b - log2 a) < 2 ^ 53 * b := by
    calc a * 2 ^ (52 + log2 b - log2 a)
        < 2 ^ (log2 a + 1) * 2 ^ (52 + log2 b - log2 a) :=
          Nat.mul_lt_mul_of_pos_right hla2 (by positivity)
      _ = 2 ^ 53 * 2 ^ log2 b := by
          rw [← pow_add, ← pow_add]; congr 1; omega
      _ ≤ 2 ^ 53 * b := Nat.mul_le_mul_left _ hlb
  have e2 : 2 ^ 52 * b < a * 2 ^ (52 + log2 b - log2 a + 1) := by
    calc 2 ^ 52 * b < 2 ^ 52 * 2 ^ (log2 b + 1) :=
          Nat.mul_lt_mul_of_pos_left hlb2 (by positivity)
      _ = 2 ^ log2 a * 2 ^ (52 + log2 b - log2 a + 1) := by
          rw [← pow_add, ← pow_add]; congr 1; omega
      _ ≤ a * 2 ^ (52 + log2 b - log2 a + 1) := Nat.mul_le_mul_right _ hla
  unfold shift
  simp only [hD]
  have hneg : (-((52 + log2 b - log2 a : Nat) : Int)).toNat = 0 := by omega
  simp only [Int.toNat_ofNat, hneg, pow_zero, mul_one]
  by_cases hc : a * 2 ^ (52 + log2 b - log2 a) < 2 ^ 52 * b
  · refine ⟨52 + log2 b - log2 a + 1, ?_, le_of_lt e2, ?_⟩
    · rw [if_pos hc]; push_cast; rfl
    · have hr : a * 2 ^ (52 + log2 b - log2 a + 1) = 2 * (a * 2 ^ (52 + log2 b - log2 a)) := by
        ring
      omega
  · refine ⟨52 + log2 b - log2 a, ?_, ?_, e1⟩
    · rw [if_neg hc]
    · omega

theorem le_roundNearestEven (n d N : Nat) (hd : 0 < d) (h : N * d ≤ n) :
    N ≤ roundNearestEven n d := by
  have hq : N ≤ n / d := (Nat.le_div_iff_mul_le hd).2 h
  unfold roundNearestEven
  simp only
  split_ifs <;> omega

theorem roundNearestEven_le (n d N : Nat) (hd : 0 < d) (h : n ≤ N * d) :
    roundNearestEven n d ≤ N := by
  have hdm := Nat.div_add_mod n d
  have hr := Nat.mod_lt n hd
  have hq : n / d ≤ N := by
    calc n / d ≤ N * d / d := Nat.div_le_div_right h
      _ = N := Nat.mul_div_cancel _ hd
  rcases Nat.lt_or_ge (n / d) N with hlt | hge
  · unfold roundNearestEven
    simp only
    split_ifs <;> omega
  · have hqe : n / d = N := le_antisymm hq hge
    have hr0 : n % d = 0 := by
      have : d * (n / d) = N * d := by rw [hqe, Nat.mul_comm]
      omega
    unfold roundNearestEven
    simp only [hr0]
    split_ifs <;> omega

/-- The rounded quotient is within half a unit of the exact quotient, and on a
tie it is even. -/
theorem roundNearestEven_nearest (n d : Nat) (hd : 0 < d) :
    2 * (roundNearestEven n d * d) ≤ 2 * n + d ∧ 2 * n ≤ 2 * (roundNearestEven n d * d) + d ∧
    (2 * (roundNearestEven n d * d) = 2 * n + d ∨ 2 * n = 2 * (roundNearestEven n d * d) + d →
      roundNearestEven n d % 2 = 0) := by
  have hdm := Nat.div_add_mod n d
  have hr := Nat.mod_lt n hd
  have e1 : (n / d + 1) * d = d * (n / d) + d := by ring
  have e2 : n / d * d = d * (n / d) := by ring
  unfold roundNearestEven
  simp only
  split_ifs with h1 h2 h3
  · rw [e2]; omega
  · rw [e1]; omega
  · rw [e2]; omega
  · rw [e1]; omega

/-- The quotient of two positive integers below `2 ^ 53` is a float with a
53-bit significand lying within half a unit in the last place of the exact
quotient `a / b`: the model of `/` is the correctly rounded division. -/
theorem quot_nearest (a b : Nat) (ha : a ≠ 0) (hb : b ≠ 0) (ha53 : a < 2 ^ 53) :
    ∃ S m : Nat, quot a 0 b 0 = fin m (-(S : Int)) ∧ 2 ^ 52 ≤ m ∧ m ≤ 2 ^ 53 ∧
      2 * (m * b) ≤ 2 * (a * 2 ^ S) + b ∧ 2 * (a * 2 ^ S) ≤ 2 * (m * b) + b := by
  obtain ⟨S, hS, hlo, hhi⟩ := shift_spec a b ha hb ha53
  have hbpos : 0 < b := Nat.pos_of_ne_zero hb
  have hneg : (-(S : Int)).toNat = 0 := by omega
  refine ⟨S, roundNearestEven (a * 2 ^ S) b, ?_, le_roundNearestEven _ _ _ hbpos hlo,
    roundNearestEven_le _ _ _ hbpos (le_of_lt hhi),
    (roundNearestEven_nearest _ _ hbpos).1, (roundNearestEven_nearest _ _ hbpos).2.1⟩
  unfold quot
  simp only [hS, Int.toNat_ofNat, hneg, pow_zero, mul_one]
  congr 1
  omega

theorem lit_0_6_eq : lit_0_6 = fin 5404319552844595 (-53) := by decide

/-- On quotients of integers below `2 ^ 50` the float comparison with `0.6`
agrees with the exact rational comparison `a / b ≥ 3 / 5`. -/
theorem ge_div_lit (a b : Nat) (hb : b ≠ 0) (ha50 : a < 2 ^ 50) (hb50 : b < 2 ^ 50) :
    ge (div (ofUInt32 a) (ofUInt32 b)) lit_0_6 = decide (3 * b ≤ 5 * a) := by
  rw [lit_0_6_eq]
  unfold ofUInt32 div
  simp only [hb, if_false]
  by_cases ha : a = 0
  · subst ha
    simp only [if_true, ge]
    have h1 : ¬ (3 * b ≤ 5 * 0) := by omega
    simp [h1, hb]
  · simp only [ha, if_false]
    obtain ⟨S, hS, hlo, hhi⟩ := shift_spec a b ha hb (by omega)
    unfold quot
    simp only [hS]
    have hneg : (-(S : Int)).toNat = 0 := by omega
    simp only [Int.toNat_ofNat, hneg, pow_zero, mul_one, ge]
    have hbpos : 0 < b := Nat.pos_of_ne_zero hb
    have hmlo : 2 ^ 52 ≤ roundNearestEven (a * 2 ^ S) b :=
      le_roundNearestEven _ _ _ hbpos hlo
    have hmhi : roundNearestEven (a * 2 ^ S) b ≤ 2 ^ 53 :=
      roundNearestEven_le _ _ _ hbpos (le_of_lt hhi)
    rcases Nat.lt_trichotomy S 53 with hlt | heq | hgt
    · -- quotient at least one
      have e1 : ((-53 : Int) - (0 - 0 - (S : Int))).toNat = 0 := by omega
      have e2 : ((0 - 0 - (S : Int)) - (-53 : Int)).toNat = 53 - S := by omega
      rw [e1, e2]
      have hp : 2 ^ 1 ≤ 2 ^ (53 - S) := Nat.pow_le_pow_right (by decide) (by omega)
      have hS52 : 2 ^ S ≤ 2 ^ 52 := Nat.pow_le_pow_right (by decide) (by omega)
      have hab : b ≤ a := by
        have h3 : a * 2 ^ S ≤ a * 2 ^ 52 := Nat.mul_le_mul_left _ hS52
        omega
      have hm : roundNearestEven (a * 2 ^ S) b * 2 ^ 1 ≤
          roundNearestEven (a * 2 ^ S) b * 2 ^ (53 - S) := Nat.mul_le_mul_left _ hp
      have hl : (5404319552844595 * 2 ^ 0 ≤ roundNearestEven (a * 2 ^ S) b * 2 ^ (53 - S)) := by
        omega
      have hr : 3 * b ≤ 5 * a := by omega
      simp only [hl, hr]
    · -- quotient in [1/2, 1): the significands are compared directly
      subst heq
      have e1 : ((-53 : Int) - (0 - 0 - ((53 : Nat) : Int))).toNat = 0 := by omega
      have e2 : ((0 - 0 - ((53 : Nat) : Int)) - (-53 : Int)).toNat = 0 := by omega
      rw [e1, e2]
      by_cases hr : 3 * b ≤ 5 * a
      · have hm : 5404319552844595 ≤ roundNearestEven (a * 2 ^ 53) b :=
          le_roundNearestEven _ _ _ hbpos (by omega)
        have hl : 5404319552844595 * 2 ^ 0 ≤ roundNearestEven (a * 2 ^ 53) b * 2 ^ 0 := by omega
        simp only [hl, hr]
      · have hm : roundNearestEven (a * 2 ^ 53) b ≤ 5404319552844594 :=
          roundNearestEven_le _ _ _ hbpos (by omega)
        have hl : ¬ (5404319552844595 * 2 ^ 0 ≤ roundNearestEven (a * 2 ^ 53) b * 2 ^ 0) := by
          omega
        simp only [hl, hr]
    · -- quotient below one half
      have e1 : ((-53 : Int) - (0 - 0 - (S : Int))).toNat = S - 53 := by omega
      have e2 : ((0 - 0 - (S : Int)) - (-53 : Int)).toNat = 0 := by omega
      rw [e1, e2]
      have hp : 2 ^ 1 ≤ 2 ^ (S - 53) := Nat.pow_le_pow_right (by decide) (by omega)
      have hS54 : 2 ^ 54 ≤ 2 ^ S := Nat.pow_le_pow_right (by decide) (by omega)
      have hab : 2 * a < b := by
        have h3 : a * 2 ^ 54 ≤ a * 2 ^ S := Nat.mul_le_mul_left _ hS54
        omega
      have hm : 5404319552844595 * 2 ^ 1 ≤ 5404319552844595 * 2 ^ (S - 53) :=
        Nat.mul_le_mul_left _ hp
      have hl : ¬ (5404319552844595 * 2 ^ (S - 53) ≤ roundNearestEven (a * 2 ^ S) b * 2 ^ 0) := by
        omega
      have hr : ¬ (3 * b ≤ 5 * a) := by omega
      simp only [hl, hr]

end F64

/-- The ready-to-trip predicate as an exact integer test, for counters below
`2 ^ 50` (so in particular for all `uint32` counters). -/
theorem shouldBeSwitchedToOpen_eq (c : Counts) (hr : c.Requests < 2 ^ 50)
    (hf : c.TotalFailures < 2 ^ 50) :
    shouldBeSwitchedToOpen c = decide (3 ≤ c.Requests ∧ 3 * c.Requests ≤ 5 * c.TotalFailures) := by
  unfold shouldBeSwitchedToOpen failureRatio
  simp only
  by_cases h3 : 3 ≤ c.Requests
  · rw [F64.ge_div_lit _ _ (by omega) hf hr]
    simp [h3]
  · simp [h3]

/-! ## The ready-to-trip predicate -/

/-- C1: for every Counts value with `uint32` counters, `shouldBeSwitchedToOpen`
returns true exactly when `Requests >= 3` and the exact rational
`TotalFailures / Requests` is at least `6/10`, equivalently
`5 * TotalFailures >= 3 * Requests`; the float64 division never changes the
outcome of the exact test. -/
theorem shouldBeSwitchedToOpen_exact (c : Counts) (h : c.IsUInt32) :
    (shouldBeSwitchedToOpen c = true ↔
      3 ≤ c.Requests ∧ (6 : ℚ) / 10 ≤ (c.TotalFailures : ℚ) / (c.Requests : ℚ)) ∧
    (shouldBeSwitchedToOpen c = true ↔
      3 ≤ c.Requests ∧ 3 * c.Requests ≤ 5 * c.TotalFailures) := by
  obtain ⟨hr, _, hf, _, _⟩ := h
  have hint : shouldBeSwitchedToOpen c = true ↔
      3 ≤ c.Requests ∧ 3 * c.Requests ≤ 5 * c.TotalFailures := by
    rw [shouldBeSwitchedToOpen_eq c (by omega) (by omega)]
    simp
  refine ⟨?_, hint⟩
  rw [hint]
  constructor
  · rintro ⟨h3, h5⟩
    refine ⟨h3, ?_⟩
    have hpos : (0 : ℚ) < (c.Requests : ℚ) := by exact_mod_cast (by omega : 0 < c.Requests)
    rw [div_le_div_iff₀ (by norm_num) hpos]
    have : ((3 * c.Requests : Nat) : ℚ) ≤ ((5 * c.TotalFailures : Nat) : ℚ) := by
      exact_mod_cast h5
    push_cast at this
    linarith
  · rintro ⟨h3, hq⟩
    refine ⟨h3, ?_⟩
    have hpos : (0 : ℚ) < (c.Requests : ℚ) := by exact_mod_cast (by omega : 0 < c.Requests)
    rw [div_le_div_iff₀ (by norm_num) hpos] at hq
    have : ((3 * c.Requests : Nat) : ℚ) ≤ ((5 * c.TotalFailures : Nat) : ℚ) := by
      push_cast
      linarith
    exact_mod_cast this

/-- Witness of C1: three requests, two of them failed. -/
theorem shouldBeSwitchedToOpen_exact_witness :
    (⟨3, 1, 2, 0, 0⟩ : Counts).IsUInt32 ∧
    ((shouldBeSwitchedToOpen ⟨3, 1, 2, 0, 0⟩ = true ↔
      3 ≤ (⟨3, 1, 2, 0, 0⟩ : Counts).Requests ∧
        (6 : ℚ) / 10 ≤ (((⟨3, 1, 2, 0, 0⟩ : Counts).TotalFailures : Nat) : ℚ) /
          (((⟨3, 1, 2, 0, 0⟩ : Counts).Requests : Nat) : ℚ)) ∧
    (shouldBeSwitchedToOpen ⟨3, 1, 2, 0, 0⟩ = true ↔
      3 ≤ (⟨3, 1, 2, 0, 0⟩ : Counts).Requests ∧
        3 * (⟨3, 1, 2, 0, 0⟩ : Counts).Requests ≤
          5 * (⟨3, 1, 2, 0, 0⟩ : Counts).TotalFailures)) :=
  ⟨by decide, shouldBeSwitchedToOpen_exact ⟨3, 1, 2, 0, 0⟩ (by decide)⟩

/-- C2 as stated fails: with two requests, both failed, the predicate is false
(fewer than three requests), and after one more success (three requests, two
failures, ratio 2/3) it is true. -/
theorem success_can_trip_counterexample :
    (⟨2, 0, 2, 0, 2⟩ : Counts).IsUInt32 ∧
    shouldBeSwitchedToOpen ⟨2, 0, 2, 0, 2⟩ = false ∧
    Counts.onSuccess ⟨2, 0, 2, 0, 2⟩ = ⟨3, 1, 2, 1, 0⟩ ∧
    shouldBeSwitchedToOpen (Counts.onSuccess ⟨2, 0, 2, 0, 2⟩) = true := by
  decide

/-- C2 amended: for every Counts value with `uint32` counters on which
`shouldBeSwitchedToOpen` returns false, the predicate is true after one more
success exactly when `Requests = 2` and `TotalFailures >= 2`; in every other
case it still returns false.  The same holds when the increment of `Requests`
wraps around at `2 ^ 32`. -/
theorem success_trips_iff (c : Counts) (h : c.IsUInt32)
    (hf : shouldBeSwitchedToOpen c = false) :
    (shouldBeSwitchedToOpen c.onSuccess = true ↔ c.Requests = 2 ∧ 2 ≤ c.TotalFailures) ∧
    (shouldBeSwitchedToOpen { c.onSuccess with Requests := (c.Requests + 1) % 2 ^ 32 } = true ↔
      c.Requests = 2 ∧ 2 ≤ c.TotalFailures) := by
  obtain ⟨hr, _, hfl, _, _⟩ := h
  rw [shouldBeSwitchedToOpen_eq c (by omega) (by omega)] at hf
  simp only [decide_eq_false_iff_not] at hf
  constructor
  · rw [shouldBeSwitchedToOpen_eq _ (by simp only [Counts.onSuccess]; omega)
      (by simp only [Counts.onSuccess]; omega)]
    simp only [Counts.onSuccess, decide_eq_true_eq]
    omega
  · by_cases hw : c.Requests + 1 < 2 ^ 32
    · rw [Nat.mod_eq_of_lt hw,
        shouldBeSwitchedToOpen_eq _ (by simp only [Counts.onSuccess]; omega)
          (by simp only [Counts.onSuccess]; omega)]
      simp only [Counts.onSuccess, decide_eq_true_eq]
      omega
    · have hw1 : c.Requests + 1 = 2 ^ 32 := by omega
      rw [hw1, Nat.mod_self,
        shouldBeSwitchedToOpen_eq _ (by simp only [Counts.onSuccess]; omega)
          (by simp only [Counts.onSuccess]; omega)]
      simp only [Counts.onSuccess, decide_eq_true_eq]
      omega

/-- Witness of C2 amended: five requests, two failed; a success keeps the
predicate false. -/
theorem success_trips_iff_witness :
    (⟨5, 3, 2, 0, 1⟩ : Counts).IsUInt32 ∧ shouldBeSwitchedToOpen ⟨5, 3, 2, 0, 1⟩ = false ∧
    ((shouldBeSwitchedToOpen (Counts.onSuccess ⟨5, 3, 2, 0, 1⟩) = true ↔
      (⟨5, 3, 2, 0, 1⟩ : Counts).Requests = 2 ∧ 2 ≤ (⟨5, 3, 2, 0, 1⟩ : Counts).TotalFailures) ∧
    (shouldBeSwitchedToOpen
        { Counts.onSuccess ⟨5, 3, 2, 0, 1⟩ with
          Requests := ((⟨5, 3, 2, 0, 1⟩ : Counts).Requests + 1) % 2 ^ 32 } = true ↔
      (⟨5, 3, 2, 0, 1⟩ : Counts).Requests = 2 ∧
        2 ≤ (⟨5, 3, 2, 0, 1⟩ : Counts).TotalFailures)) :=
  ⟨by decide, by decide, success_trips_iff ⟨5, 3, 2, 0, 1⟩ (by decide) (by decide)⟩

/-- C5: for every Counts value with `Requests < 3`, whatever the other
counters, `shouldBeSwitchedToOpen` returns false; the ratio is then still a
float64 value, and for `Requests = 0` it is NaN or plus infinity (the division
by zero yields a value, not a fault). -/
theorem few_requests_never_trip (c : Counts) (h : c.Requests < 3) :
    shouldBeSwitchedToOpen c = false ∧
    (c.Requests = 0 → failureRatio c = F64.nan ∨ failureRatio c = F64.inf) := by
  constructor
  · unfold shouldBeSwitchedToOpen
    have : ¬ (c.Requests ≥ 3) := by omega
    simp [this]
  · intro h0
    unfold failureRatio F64.ofUInt32 F64.div
    rw [h0]
    by_cases hz : c.TotalFailures = 0
    · left; simp [hz]
    · right; simp [hz]

/-- Witness of C5: the new window holding a single failed request, and the
empty window. -/
theorem few_requests_never_trip_witness :
    ((⟨1, 0, 1, 0, 1⟩ : Counts).Requests < 3 ∧ shouldBeSwitchedToOpen ⟨1, 0, 1, 0, 1⟩ = false) ∧
    ((⟨0, 0, 0, 0, 0⟩ : Counts).Requests < 3 ∧ shouldBeSwitchedToOpen ⟨0, 0, 0, 0, 0⟩ = false ∧
      failureRatio ⟨0, 0, 0, 0, 0⟩ = F64.nan) :=
  ⟨⟨by decide, (few_requests_never_trip ⟨1, 0, 1, 0, 1⟩ (by decide)).1⟩,
   ⟨by decide, (few_requests_never_trip ⟨0, 0, 0, 0, 0⟩ (by decide)).1, by decide⟩⟩

/-- C8: for every Counts value with `uint32` counters and
`TotalFailures <= Requests` on which `shouldBeSwitchedToOpen` returns true, it
also returns true after one more failure is recorded, provided the increment
does not overflow. -/
theorem failure_keeps_tripped (c : Counts) (h : c.IsUInt32) (hno : c.Requests + 1 < 2 ^ 32)
    (hle : c.TotalFailures ≤ c.Requests) (ht : shouldBeSwitchedToOpen c = true) :
    c.onFailure.Requests < 2 ^ 32 ∧ c.onFailure.TotalFailures < 2 ^ 32 ∧
    shouldBeSwitchedToOpen c.onFailure = true := by
  obtain ⟨hr, hs, hfl, hcs, hcf⟩ := h
  rw [shouldBeSwitchedToOpen_eq c (by omega) (by omega)] at ht
  simp only [decide_eq_true_eq] at ht
  refine ⟨?_, ?_, ?_⟩
  · simp only [Counts.onFailure]
    omega
  · simp only [Counts.onFailure]
    omega
  · rw [shouldBeSwitchedToOpen_eq _ (by simp only [Counts.onFailure]; omega)
      (by simp only [Counts.onFailure]; omega)]
    simp only [Counts.onFailure, decide_eq_true_eq]
    omega

/-- Witness of C8: three requests, two failed, then a third failure. -/
theorem failure_keeps_tripped_witness :
    (⟨3, 1, 2, 0, 1⟩ : Counts).IsUInt32 ∧ (⟨3, 1, 2, 0, 1⟩ : Counts).Requests + 1 < 2 ^ 32 ∧
    (⟨3, 1, 2, 0, 1⟩ : Counts).TotalFailures ≤ (⟨3, 1, 2, 0, 1⟩ : Counts).Requests ∧
    shouldBeSwitchedToOpen ⟨3, 1, 2, 0, 1⟩ = true ∧
    shouldBeSwitchedToOpen (Counts.onFailure ⟨3, 1, 2, 0, 1⟩) = true :=
  ⟨by decide, by decide, by decide, by decide,
    (failure_keeps_tripped ⟨3, 1, 2, 0, 1⟩ (by decide) (by decide) (by decide) (by decide)).2.2⟩

/-! ## The SMS client and the demo server -/

/-- C9: `SmsClient.Send` returns the transport error unchanged when the GET
fails; otherwise it returns nil exactly when the status code `s` satisfies
`200 <= s < 300` and the error "bad response" for every other status code. -/
theorem SmsClient_Send_result (httpGet : String → Except GoError Response) (s : SmsClient) :
    (∀ err, httpGet (s.baseUrl ++ "/") = Except.error err → s.Send httpGet = some err) ∧
    (∀ resp, httpGet (s.baseUrl ++ "/") = Except.ok resp →
      (s.Send httpGet = none ↔ 200 ≤ resp.StatusCode ∧ resp.StatusCode < 300) ∧
      (¬ (200 ≤ resp.StatusCode ∧ resp.StatusCode < 300) →
        s.Send httpGet = some (errorsNew "bad response"))) := by
  constructor
  · intro err h
    simp [SmsClient.Send, h]
  · intro resp h
    by_cases hc : resp.StatusCode < 200 ∨ resp.StatusCode ≥ 300
    · have hn : ¬ (200 ≤ resp.StatusCode ∧ resp.StatusCode < 300) := by omega
      simp only [SmsClient.Send, h, hc, if_true]
      simp [hn]
    · have hn : 200 ≤ resp.StatusCode ∧ resp.StatusCode < 300 := by omega
      simp only [SmsClient.Send, h, hc, if_false]
      simp [hn]

/-- Witness of C9: a transport error, and the status codes 199, 200, 299, 300
and 500. -/
theorem SmsClient_Send_result_witness :
    (NewSmsClient "http://127.0.0.1:8080").Send (fun _ => Except.error ⟨"refused"⟩) =
      some ⟨"refused"⟩ ∧
    (NewSmsClient "http://127.0.0.1:8080").Send (fun _ => Except.ok ⟨199⟩) =
      some (errorsNew "bad response") ∧
    (NewSmsClient "http://127.0.0.1:8080").Send (fun _ => Except.ok ⟨200⟩) = none ∧
    (NewSmsClient "http://127.0.0.1:8080").Send (fun _ => Except.ok ⟨299⟩) = none ∧
    (NewSmsClient "http://127.0.0.1:8080").Send (fun _ => Except.ok ⟨300⟩) =
      some (errorsNew "bad response") ∧
    (NewSmsClient "http://127.0.0.1:8080").Send (fun _ => Except.ok ⟨500⟩) =
      some (errorsNew "bad response") :=
  ⟨(SmsClient_Send_result (fun _ => Except.error ⟨"refused"⟩) _).1 ⟨"refused"⟩ rfl,
   ((SmsClient_Send_result (fun _ => Except.ok ⟨199⟩) _).2 ⟨199⟩ rfl).2 (by decide),
   ((SmsClient_Send_result (fun _ => Except.ok ⟨200⟩) _).2 ⟨200⟩ rfl).1.2 (by decide),
   ((SmsClient_Send_result (fun _ => Except.ok ⟨299⟩) _).2 ⟨299⟩ rfl).1.2 (by decide),
   ((SmsClient_Send_result (fun _ => Except.ok ⟨300⟩) _).2 ⟨300⟩ rfl).2 (by decide),
   ((SmsClient_Send_result (fun _ => Except.ok ⟨500⟩) _).2 ⟨500⟩ rfl).2 (by decide)⟩

theorem toggles_addr (n : Nat) : ∀ s : ExampleServer, (ExampleServer.toggles n s).addr = s.addr := by
  induction n with
  | zero => intro s; rfl
  | succ k ih => intro s; simp [ExampleServer.toggles, ih, ExampleServer.handleToggle]

theorem toggles_isEnabled (n : Nat) : ∀ s : ExampleServer,
    (ExampleServer.toggles n s).isEnabled = if n % 2 = 0 then s.isEnabled else !s.isEnabled := by
  induction n with
  | zero => intro s; rfl
  | succ k ih =>
    intro s
    simp only [ExampleServer.toggles, ih, ExampleServer.handleToggle]
    rcases Nat.mod_two_eq_zero_or_one k with h | h
    · have h1 : (k + 1) % 2 = 1 := by omega
      simp [h, h1]
    · have h1 : (k + 1) % 2 = 0 := by omega
      simp [h, h1]

/-- C10: an `ExampleServer` is created enabled; the root handler answers 200
exactly when `isEnabled` is true and 500 otherwise, without changing the
server; each toggle request negates `isEnabled`, answers 200 and leaves `addr`
unchanged, so that after `n` toggles of a new server it is enabled exactly
when `n` is even, and two toggles restore any state. -/
theorem ExampleServer_behaviour :
    (∀ addr, NewExampleServer addr = ⟨addr, true⟩) ∧
    (∀ s : ExampleServer, (s.handleRoot.1 = 200 ↔ s.isEnabled = true) ∧
      (s.handleRoot.1 = 500 ↔ s.isEnabled = false) ∧ s.handleRoot.2 = s) ∧
    (∀ s : ExampleServer, s.handleToggle = (200, ⟨s.addr, !s.isEnabled⟩)) ∧
    (∀ n addr, ((NewExampleServer addr).toggles n).isEnabled = true ↔ n % 2 = 0) ∧
    (∀ n (s : ExampleServer), (s.toggles n).addr = s.addr) ∧
    (∀ s : ExampleServer, s.toggles 2 = s) := by
  refine ⟨fun _ => rfl, ?_, fun _ => rfl, ?_, ?_, ?_⟩
  · intro s
    cases hs : s.isEnabled <;>
      simp [ExampleServer.handleRoot, hs, StatusOK, StatusInternalServerError]
  · intro n addr
    rw [toggles_isEnabled]
    by_cases h : n % 2 = 0 <;> simp [h, NewExampleServer]
  · intro n s
    exact toggles_addr n s
  · intro s
    cases s with
    | mk a e => cases e <;> rfl


/-! ## The breaker and the proxy -/

theorem beforeCall_error_iff {ε : Type} (now : Nat) (b : CircuitBreaker) :
    (∃ e, (CircuitBreaker.beforeCall now b : Except (ExecError ε) _) = Except.error e) ↔
      (b.state = State.Open ∧ now < b.since + b.settings.Timeout) ∨
      (b.state = State.HalfOpen ∧ b.inFlight = true) := by
  unfold CircuitBreaker.beforeCall
  cases hs : b.state
  · simp only [reduceCtorEq, false_and, or_self, iff_false, not_exists]
    intro e
    split_ifs <;> simp
  · by_cases h : now < b.since + b.settings.Timeout
    · simp [h]
    · simp [h]
  · cases hi : b.inFlight <;> simp

theorem beforeCall_error_kind {ε : Type} (now : Nat) (b : CircuitBreaker) (e : ExecError ε)
    (h : CircuitBreaker.beforeCall now b = Except.error e) :
    e = ExecError.ErrCircuitOpen ∨ e = ExecError.ErrTooManyRequests := by
  unfold CircuitBreaker.beforeCall at h
  cases hs : b.state <;> rw [hs] at h <;> simp only at h
  · split_ifs at h
  · split_ifs at h
    left
    injection h with h
    exact h.symm
  · split_ifs at h
    right
    injection h with h
    exact h.symm

/-- C4: for every wrapped client and every breaker state, `Send` of the proxy
returns exactly the error value (nil or not) the wrapped client returned when
the call is admitted, and returns the breaker's rejection error (circuit open
or too many requests), leaving the wrapped client untouched, when the call is
not admitted. -/
theorem Send_returns {κ ε : Type} (impl : NotificationClient κ ε) (now done : Nat)
    (c : ClientCircuitBreakerProxy κ) :
    (∀ e, CircuitBreaker.beforeCall now c.gb = Except.error e →
      c.Send impl now done = (some e, c) ∧
      (e = ExecError.ErrCircuitOpen ∨ e = ExecError.ErrTooManyRequests)) ∧
    (∀ b1 g, (CircuitBreaker.beforeCall now c.gb : Except (ExecError ε) _) = Except.ok (b1, g) →
      (c.Send impl now done).1 = (impl.Send c.client).1.map ExecError.operation ∧
      (c.Send impl now done).2.client = (impl.Send c.client).2 ∧
      (c.Send impl now done).2.gb = b1.afterCall g (impl.Send c.client).1.isNone done) ∧
    ((∃ e, (CircuitBreaker.beforeCall now c.gb : Except (ExecError ε) _) = Except.error e) ↔
      (c.gb.state = State.Open ∧ now < c.gb.since + c.gb.settings.Timeout) ∨
      (c.gb.state = State.HalfOpen ∧ c.gb.inFlight = true)) := by
  refine ⟨?_, ?_, beforeCall_error_iff now c.gb⟩
  · intro e h
    refine ⟨?_, beforeCall_error_kind now c.gb e h⟩
    simp only [ClientCircuitBreakerProxy.Send, CircuitBreaker.Execute, h]
  · intro b1 g h
    simp [ClientCircuitBreakerProxy.Send, CircuitBreaker.Execute, h]

/-- Witness of C4: a rejected call on an open breaker, and an admitted call on
a new breaker. -/
theorem Send_returns_witness :
    (openProxy.Send failingClient second second = (some ExecError.ErrCircuitOpen, openProxy)) ∧
    (((NewClientCircuitBreakerProxy (0 : Nat) 0).Send failingClient 0 0).1 =
        some (ExecError.operation (errorsNew "bad response")) ∧
      ((NewClientCircuitBreakerProxy (0 : Nat) 0).Send failingClient 0 0).2.client = 1) :=
  ⟨((Send_returns failingClient second second openProxy).1 ExecError.ErrCircuitOpen rfl).1,
   ((Send_returns failingClient 0 0 (NewClientCircuitBreakerProxy (0 : Nat) 0)).2.1
      (NewCircuitBreaker cfg 0) 0 rfl).1,
   ((Send_returns failingClient 0 0 (NewClientCircuitBreakerProxy (0 : Nat) 0)).2.1
      (NewCircuitBreaker cfg 0) 0 rfl).2.1⟩

/-- A `Send` on an open breaker whose timeout has not elapsed is rejected and
changes nothing. -/
theorem Send_open_rejected {κ ε : Type} (impl : NotificationClient κ ε) (now done : Nat)
    (c : ClientCircuitBreakerProxy κ) (hopen : c.gb.state = State.Open)
    (h : now < c.gb.since + c.gb.settings.Timeout) :
    c.Send impl now done = (some ExecError.ErrCircuitOpen, c) := by
  have hb : (CircuitBreaker.beforeCall now c.gb : Except (ExecError ε) _) =
      Except.error ExecError.ErrCircuitOpen := by
    unfold CircuitBreaker.beforeCall
    rw [hopen]
    simp only [h, if_true]
  simp only [ClientCircuitBreakerProxy.Send, CircuitBreaker.Execute, hb]

/-- The probe: a `Send` on an open breaker whose timeout has elapsed is
admitted into HalfOpen under the next generation, runs the wrapped client, and
ends in Closed (client succeeded) or Open (client failed) under the generation
after that, with zero counts and the new state entered at completion. -/
theorem Send_open_probe {κ ε : Type} (impl : NotificationClient κ ε) (now done : Nat)
    (c : ClientCircuitBreakerProxy κ) (hopen : c.gb.state = State.Open)
    (h : ¬ (now < c.gb.since + c.gb.settings.Timeout)) :
    (CircuitBreaker.beforeCall now c.gb : Except (ExecError ε) _) =
        Except.ok ({ c.gb.setState State.HalfOpen now with inFlight := true },
          c.gb.generation + 1) ∧
    c.Send impl now done =
      ((impl.Send c.client).1.map ExecError.operation,
        { client := (impl.Send c.client).2
          gb := CircuitBreaker.afterCall (c.gb.generation + 1) (impl.Send c.client).1.isNone
            done { c.gb.setState State.HalfOpen now with inFlight := true } }) ∧
    (CircuitBreaker.afterCall (c.gb.generation + 1) (impl.Send c.client).1.isNone
        done { c.gb.setState State.HalfOpen now with inFlight := true }) =
      { settings := c.gb.settings
        state := if (impl.Send c.client).1.isNone then State.Closed else State.Open
        generation := c.gb.generation + 2
        counts := Counts.zero
        since := done
        inFlight := false } := by
  have hb : (CircuitBreaker.beforeCall now c.gb : Except (ExecError ε) _) =
      Except.ok ({ c.gb.setState State.HalfOpen now with inFlight := true },
        c.gb.generation + 1) := by
    unfold CircuitBreaker.beforeCall
    rw [hopen]
    simp only [h, if_false]
    rfl
  refine ⟨hb, ?_, ?_⟩
  · simp only [ClientCircuitBreakerProxy.Send, CircuitBreaker.Execute, hb]
  · cases (impl.Send c.client).1.isNone <;>
      simp [CircuitBreaker.afterCall, CircuitBreaker.setState, CircuitBreaker.toNewGeneration]

/-- C6: with the proxy's open timeout of 7 seconds and the breaker Open since
instant `since`, every `Send` admitted strictly before `since + 7s` is rejected
with the circuit-open error and leaves the proxy (state Open included)
unchanged; a `Send` after `since + 7s` is admitted: the breaker passes to
HalfOpen with zero counts under the next generation, the wrapped client is
invoked and its error returned, and the breaker that `Send` leaves behind is
the HalfOpen breaker after that outcome was recorded: Closed on success, Open
on failure, two generations after the one that was Open. -/
theorem open_timeout_seven_seconds {κ ε : Type} (impl : NotificationClient κ ε)
    (c : ClientCircuitBreakerProxy κ) (hcfg : c.gb.settings = cfg)
    (hopen : c.gb.state = State.Open) :
    (∀ now done, now < c.gb.since + 7 * second →
      c.Send impl now done = (some ExecError.ErrCircuitOpen, c)) ∧
    (∀ ts : List (Nat × Nat), (∀ t ∈ ts, t.1 < c.gb.since + 7 * second) →
      c.SendAll impl ts = (ts.map (fun _ => some ExecError.ErrCircuitOpen), c)) ∧
    (∀ now done, c.gb.since + 7 * second < now →
      ∃ b1, (CircuitBreaker.beforeCall now c.gb : Except (ExecError ε) _) =
          Except.ok (b1, c.gb.generation + 1) ∧
        b1.state = State.HalfOpen ∧ b1.generation = c.gb.generation + 1 ∧
        b1.counts = Counts.zero ∧ b1.inFlight = true ∧
        (c.Send impl now done).1 = (impl.Send c.client).1.map ExecError.operation ∧
        (c.Send impl now done).2.client = (impl.Send c.client).2 ∧
        (c.Send impl now done).2.gb =
          b1.afterCall (c.gb.generation + 1) (impl.Send c.client).1.isNone done ∧
        (c.Send impl now done).2.gb.generation = c.gb.generation + 2 ∧
        (c.Send impl now done).2.gb.state =
          (if (impl.Send c.client).1.isNone then State.Closed else State.Open) ∧
        (c.Send impl now done).2.gb.counts = Counts.zero ∧
        (c.Send impl now done).2.gb.since = done) := by
  have hT : c.gb.settings.Timeout = 7 * second := by rw [hcfg]; rfl
  have hrej : ∀ now done, now < c.gb.since + 7 * second →
      c.Send impl now done = (some ExecError.ErrCircuitOpen, c) := by
    intro now done h
    exact Send_open_rejected impl now done c hopen (by rw [hT]; exact h)
  refine ⟨hrej, ?_, ?_⟩
  · intro ts
    induction ts with
    | nil => intro _; rfl
    | cons t ts ih =>
      intro h
      have h1 := hrej t.1 t.2 (h t (List.mem_cons_self _ _))
      have h2 := ih (fun u hu => h u (List.mem_cons_of_mem _ hu))
      simp only [ClientCircuitBreakerProxy.SendAll, h1, h2, List.map_cons]
  · intro now done h
    have hn : ¬ (now < c.gb.since + c.gb.settings.Timeout) := by rw [hT]; omega
    obtain ⟨hb, hsend, hafter⟩ := Send_open_probe impl now done c hopen hn
    refine ⟨_, hb, rfl, rfl, rfl, rfl, ?_, ?_, ?_, ?_, ?_, ?_, ?_⟩
    · rw [hsend]
    · rw [hsend]
    · rw [hsend]
    · rw [hsend]; simp only; rw [hafter]
    · rw [hsend]; simp only; rw [hafter]
    · rw [hsend]; simp only; rw [hafter]
    · rw [hsend]; simp only; rw [hafter]

/-- Witness of C6: the breaker Open since instant 0 under generation 1; a call
at 6.9 s is rejected and changes nothing; a call at 7.1 s is admitted into
HalfOpen under generation 2, reaches the failing client, and leaves the breaker
Open again under generation 3. -/
theorem open_timeout_seven_seconds_witness :
    openProxy.gb.settings = cfg ∧ openProxy.gb.state = State.Open ∧
    openProxy.Send failingClient 6900000000 6900000000 =
      (some ExecError.ErrCircuitOpen, openProxy) ∧
    (∃ b1, (CircuitBreaker.beforeCall 7100000000 openProxy.gb : Except (ExecError GoError) _) =
          Except.ok (b1, openProxy.gb.generation + 1) ∧
        b1.state = State.HalfOpen ∧ b1.generation = openProxy.gb.generation + 1 ∧
        b1.counts = Counts.zero ∧ b1.inFlight = true ∧
        (openProxy.Send failingClient 7100000000 7100000000).1 =
          (failingClient.Send openProxy.client).1.map ExecError.operation ∧
        (openProxy.Send failingClient 7100000000 7100000000).2.client =
          (failingClient.Send openProxy.client).2 ∧
        (openProxy.Send failingClient 7100000000 7100000000).2.gb =
          b1.afterCall (openProxy.gb.generation + 1)
            (failingClient.Send openProxy.client).1.isNone 7100000000 ∧
        (openProxy.Send failingClient 7100000000 7100000000).2.gb.generation =
          openProxy.gb.generation + 2 ∧
        (openProxy.Send failingClient 7100000000 7100000000).2.gb.state =
          (if (failingClient.Send openProxy.client).1.isNone then State.Closed
            else State.Open) ∧
        (openProxy.Send failingClient 7100000000 7100000000).2.gb.counts = Counts.zero ∧
        (openProxy.Send failingClient 7100000000 7100000000).2.gb.since = 7100000000) ∧
    (openProxy.Send failingClient 7100000000 7100000000).2.gb.state = State.Open ∧
    (openProxy.Send failingClient 7100000000 7100000000).2.gb.generation = 3 ∧
    (openProxy.Send failingClient 7100000000 7100000000).2.client = 4 :=
  ⟨rfl, rfl,
   (open_timeout_seven_seconds failingClient openProxy rfl rfl).1 6900000000 6900000000
     (by decide),
   (open_timeout_seven_seconds failingClient openProxy rfl rfl).2.2 7100000000 7100000000
     (by decide),
   by decide, by decide, by decide⟩

/-- A `Send` in state Closed whose window has not run out and whose wrapped
client fails: the error is passed through, the failure is recorded, and the
breaker opens exactly when the predicate holds on the updated counts. -/
theorem Send_closed_failure {κ ε : Type} (impl : NotificationClient κ ε) (now done : Nat)
    (c : ClientCircuitBreakerProxy κ) (e : ε) (w1 : κ) (hcfg : c.gb.settings = cfg)
    (hclosed : c.gb.state = State.Closed) (hwin : now < c.gb.since + 5 * second)
    (hfail : impl.Send c.client = (some e, w1)) :
    c.Send impl now done =
      (some (ExecError.operation e),
        { client := w1
          gb := if shouldBeSwitchedToOpen c.gb.counts.onFailure then
              CircuitBreaker.setState State.Open done
                { c.gb with counts := c.gb.counts.onFailure }
            else { c.gb with counts := c.gb.counts.onFailure } }) := by
  have hI : c.gb.settings.Interval = 5 * second := by rw [hcfg]; rfl
  have hR : c.gb.settings.ReadyToTrip = shouldBeSwitchedToOpen := by rw [hcfg]; rfl
  have hn : ¬ (c.gb.since + 5 * second ≤ now) := by omega
  have hb : (CircuitBreaker.beforeCall now c.gb : Except (ExecError ε) _) =
      Except.ok (c.gb, c.gb.generation) := by
    unfold CircuitBreaker.beforeCall
    rw [hclosed]
    simp only [hI, hn, and_false, if_false]
  simp only [ClientCircuitBreakerProxy.Send, CircuitBreaker.Execute, hb, hfail,
    CircuitBreaker.afterCall, hclosed, hR]
  simp

/-- C3 as stated fails: three consecutive admitted calls that all fail, at 0 s,
1 s and 6 s after construction, leave the breaker Closed, because the 5 s
window was reset before the third call; a fourth call right afterwards is
admitted and reaches the wrapped client (invoked four times in all). -/
theorem three_failures_counterexample :
    ((NewClientCircuitBreakerProxy (0 : Nat) 0).SendAll failingClient
      [(0, 0), (second, second), (6 * second, 6 * second)]).1 =
        [some (ExecError.operation (errorsNew "bad response")),
         some (ExecError.operation (errorsNew "bad response")),
         some (ExecError.operation (errorsNew "bad response"))] ∧
    ((NewClientCircuitBreakerProxy (0 : Nat) 0).SendAll failingClient
      [(0, 0), (second, second), (6 * second, 6 * second)]).2.client = 3 ∧
    ((NewClientCircuitBreakerProxy (0 : Nat) 0).SendAll failingClient
      [(0, 0), (second, second), (6 * second, 6 * second)]).2.gb.state = State.Closed ∧
    ((NewClientCircuitBreakerProxy (0 : Nat) 0).SendAll failingClient
      [(0, 0), (second, second), (6 * second, 6 * second)]).2.gb.counts = ⟨1, 0, 1, 0, 1⟩ ∧
    (((NewClientCircuitBreakerProxy (0 : Nat) 0).SendAll failingClient
      [(0, 0), (second, second), (6 * second, 6 * second)]).2.Send failingClient
        (6 * second) (6 * second)).1 = some (ExecError.operation (errorsNew "bad response")) ∧
    (((NewClientCircuitBreakerProxy (0 : Nat) 0).SendAll failingClient
      [(0, 0), (second, second), (6 * second, 6 * second)]).2.Send failingClient
        (6 * second) (6 * second)).2.client = 4 := by
  decide

/-- The first `Send` on a new proxy with a failing client: the breaker stays
Closed with one recorded failure, in the window that began at construction or,
when 5 s had already passed, at this admission. -/
theorem first_Send_failure {κ ε : Type} (impl : NotificationClient κ ε) (t0 a1 d1 : Nat)
    (w w1 : κ) (e1 : ε) (h1 : impl.Send w = (some e1, w1)) :
    (NewClientCircuitBreakerProxy w t0).Send impl a1 d1 =
      (some (ExecError.operation e1),
        { client := w1
          gb := { settings := cfg, state := State.Closed,
                  generation := if t0 + 5 * second ≤ a1 then 1 else 0,
                  counts := ⟨1, 0, 1, 0, 1⟩,
                  since := if t0 + 5 * second ≤ a1 then a1 else t0,
                  inFlight := false } }) := by
  have hsb : shouldBeSwitchedToOpen ⟨1, 0, 1, 0, 1⟩ = false := by decide
  have hI : cfg.Interval = 5 * second := rfl
  have hR : cfg.ReadyToTrip = shouldBeSwitchedToOpen := rfl
  have hs0 : (5 : Nat) * second ≠ 0 := by decide
  by_cases hreset : t0 + 5 * second ≤ a1
  · simp [ClientCircuitBreakerProxy.Send, CircuitBreaker.Execute, CircuitBreaker.beforeCall,
      NewClientCircuitBreakerProxy, NewCircuitBreaker, CircuitBreaker.afterCall,
      CircuitBreaker.toNewGeneration, Counts.onFailure, Counts.zero, h1, hreset, hI, hR, hsb,
      hs0]
  · simp [ClientCircuitBreakerProxy.Send, CircuitBreaker.Execute, CircuitBreaker.beforeCall,
      NewClientCircuitBreakerProxy, NewCircuitBreaker, CircuitBreaker.afterCall,
      CircuitBreaker.toNewGeneration, Counts.onFailure, Counts.zero, h1, hreset, hI, hR, hsb]

/-- C3 amended: on a new proxy, three consecutive `Send` calls whose wrapped
client fails each time and which fall entirely into one closed-state window
(the completion of the first call and the admission and completion of the
second and third all lie less than 5 s after the start of the window in force
at the first admission: the construction instant, or the first admission when
more than 5 s had passed by then) are all admitted and return the client's
errors, and leave the breaker Open, opened at the completion of the third; at
none of these instants has the breaker's window run out; a fourth `Send`
admitted less than 7 s after the third completed returns the circuit-open
error and leaves the proxy, wrapped client included, untouched. -/
theorem three_failures_in_one_window {κ ε : Type} (impl : NotificationClient κ ε)
    (w w1 w2 w3 : κ) (e1 e2 e3 : ε) (t0 a1 d1 a2 d2 a3 d3 a4 d4 : Nat)
    (h1 : impl.Send w = (some e1, w1)) (h2 : impl.Send w1 = (some e2, w2))
    (h3 : impl.Send w2 = (some e3, w3))
    (hd1 : d1 < (if t0 + 5 * second < a1 then a1 else t0) + 5 * second)
    (hw2 : a2 < (if t0 + 5 * second < a1 then a1 else t0) + 5 * second)
    (hd2 : d2 < (if t0 + 5 * second < a1 then a1 else t0) + 5 * second)
    (hw3 : a3 < (if t0 + 5 * second < a1 then a1 else t0) + 5 * second)
    (hd3 : d3 < (if t0 + 5 * second < a1 then a1 else t0) + 5 * second)
    (h4 : a4 < d3 + 7 * second) :
    ∃ gb3 : CircuitBreaker,
      (NewClientCircuitBreakerProxy w t0).SendAll impl [(a1, d1), (a2, d2), (a3, d3)] =
        ([some (ExecError.operation e1), some (ExecError.operation e2),
          some (ExecError.operation e3)], { client := w3, gb := gb3 }) ∧
      gb3.state = State.Open ∧ gb3.since = d3 ∧ gb3.settings = cfg ∧
      gb3.counts = Counts.zero ∧
      (∀ x ∈ [d1, a2, d2, a3, d3],
        x < ((NewClientCircuitBreakerProxy w t0).Send impl a1 d1).2.gb.since + cfg.Interval) ∧
      ({ client := w3, gb := gb3 } : ClientCircuitBreakerProxy κ).Send impl a4 d4 =
        (some ExecError.ErrCircuitOpen, { client := w3, gb := gb3 }) := by
  have hsb2 : shouldBeSwitchedToOpen (Counts.onFailure ⟨1, 0, 1, 0, 1⟩) = false := by decide
  have hsb3 : shouldBeSwitchedToOpen (Counts.onFailure (Counts.onFailure ⟨1, 0, 1, 0, 1⟩)) =
      true := by decide
  have hws : (if t0 + 5 * second < a1 then a1 else t0) ≤
      (if t0 + 5 * second ≤ a1 then a1 else t0) := by
    split_ifs <;> omega
  have s1 := first_Send_failure impl t0 a1 d1 w w1 e1 h1
  have s2 := Send_closed_failure impl a2 d2
    { client := w1
      gb := { settings := cfg, state := State.Closed,
              generation := if t0 + 5 * second ≤ a1 then 1 else 0,
              counts := ⟨1, 0, 1, 0, 1⟩,
              since := if t0 + 5 * second ≤ a1 then a1 else t0,
              inFlight := false } } e2 w2 rfl rfl (lt_of_lt_of_le hw2 (by simp only; omega)) h2
  simp only [hsb2, Bool.false_eq_true, if_false] at s2
  have s3 := Send_closed_failure impl a3 d3
    { client := w2
      gb := { settings := cfg, state := State.Closed,
              generation := if t0 + 5 * second ≤ a1 then 1 else 0,
              counts := Counts.onFailure ⟨1, 0, 1, 0, 1⟩,
              since := if t0 + 5 * second ≤ a1 then a1 else t0,
              inFlight := false } } e3 w3 rfl rfl (lt_of_lt_of_le hw3 (by simp only; omega)) h3
  simp only [hsb3, if_true] at s3
  refine ⟨CircuitBreaker.setState State.Open d3
      { settings := cfg, state := State.Closed,
        generation := if t0 + 5 * second ≤ a1 then 1 else 0,
        counts := Counts.onFailure (Counts.onFailure ⟨1, 0, 1, 0, 1⟩),
        since := if t0 + 5 * second ≤ a1 then a1 else t0,
        inFlight := false }, ?_, rfl, rfl, rfl, rfl, ?_, ?_⟩
  · simp only [ClientCircuitBreakerProxy.SendAll, s1, s2, s3]
  · have hI : cfg.Interval = 5 * second := rfl
    rw [s1, hI]
    intro x hx
    simp only [List.mem_cons, List.mem_singleton, List.not_mem_nil, or_false] at hx
    rcases hx with rfl | rfl | rfl | rfl | rfl <;> simp only <;> omega
  · exact Send_open_rejected impl a4 d4 _ rfl h4

/-- Witness of C3 amended: failures at 0 s, 1 s and 2 s after construction, each
completing half a second later, open the breaker at 2.5 s; a call at 3 s is
rejected and the client is not invoked a fourth time. -/
theorem three_failures_in_one_window_witness :
    ∃ gb3 : CircuitBreaker,
      (NewClientCircuitBreakerProxy (0 : Nat) 0).SendAll failingClient
          [(0, 500000000), (second, 1500000000), (2 * second, 2500000000)] =
        ([some (ExecError.operation (errorsNew "bad response")),
          some (ExecError.operation (errorsNew "bad response")),
          some (ExecError.operation (errorsNew "bad response"))],
          { client := 3, gb := gb3 }) ∧
      gb3.state = State.Open ∧ gb3.since = 2500000000 ∧ gb3.settings = cfg ∧
      gb3.counts = Counts.zero ∧
      (∀ x ∈ [500000000, second, 1500000000, 2 * second, 2500000000],
        x < ((NewClientCircuitBreakerProxy (0 : Nat) 0).Send failingClient 0 500000000).2.gb.since
          + cfg.Interval) ∧
      ({ client := 3, gb := gb3 } : ClientCircuitBreakerProxy Nat).Send failingClient
          (3 * second) (3 * second) =
        (some ExecError.ErrCircuitOpen, { client := 3, gb := gb3 }) :=
  three_failures_in_one_window failingClient 0 1 2 3 (errorsNew "bad response")
    (errorsNew "bad response") (errorsNew "bad response") 0 0 500000000 second 1500000000
    (2 * second) 2500000000 (3 * second) (3 * second) rfl rfl rfl (by decide) (by decide)
    (by decide) (by decide) (by decide) (by decide)

end CBDemo
